import Mathlib

/-!
Verification development for the bible-podcaster pipeline.

Shallow embedding of the repository's Python sources:
  * `src/pipeline/base.py`            — `Pipeline.run`, `Pipeline.add_stage`
  * `src/pipeline/models.py`          — `TextItem`, `AudioItem`
  * `src/text_processor/context_analyzer.py`
        — `ContextEvaluation`, `ContextAnalysisResult`, `TextItem`,
          `BiblicalContextAnalyzer.run`, `BiblicalContextAnalyzer._detect_language`
  * `src/audio_generator/elevenlabs_tts.py`
        — `ElevenLabsTTS.run`, `ElevenLabsTTS._create_silent_audio`
  * `src/image_generator/simple_card.py` — `SimpleCardGenerator._wrap_text`
  * `src/video_creator/moviepy_editor.py` — `SimpleVideoCreator._get_audio_duration`

Modelling conventions:
  * Python strings are `String` (or `List Char` where character-level
    reasoning is needed); Python ints are `Nat`; Python floats are `ℚ`
    (every float literal appearing in the sources — 0.3, 5.0, 1.0, 0.8,
    0.5 — is exactly representable, and the single float comparison in
    `_detect_language` is modelled as the exact rational comparison).
  * Calls to external services/libraries (OpenAI, ElevenLabs, pydub, the
    `wave` module, font metrics, audio decoding) are inputs of the
    embedded functions: either the value they would return or a `Bool`/
    `Except`/`Option` describing whether the call succeeds.
  * Filesystem writes are recorded in an explicit effect trace, in the
    order the Python code performs them.
  * Raised exceptions are `Except.error` results.
-/

/-! ### Basic character utilities -/

/-- Decimal digit character, as produced by `strftime` digit fields. -/
def digitChar (n : Nat) : Char :=
  match n with
  | 0 => '0' | 1 => '1' | 2 => '2' | 3 => '3' | 4 => '4'
  | 5 => '5' | 6 => '6' | 7 => '7' | 8 => '8' | _ => '9'

/-- Two zero-padded decimal digits (`%m`, `%d`, `%H`, `%M`). -/
def digits2 (n : Nat) : List Char :=
  [digitChar (n / 10 % 10), digitChar (n % 10)]

/-- Four zero-padded decimal digits (`%Y`, for the years a run happens in). -/
def digits4 (n : Nat) : List Char :=
  [digitChar (n / 1000 % 10), digitChar (n / 100 % 10),
   digitChar (n / 10 % 10), digitChar (n % 10)]

/-- The fields of `datetime.now()` that `strftime("%Y%m%d_%H%M")` reads. -/
structure PyDateTime where
  year : Nat
  month : Nat
  day : Nat
  hour : Nat
  minute : Nat
deriving DecidableEq

/-- Models the stdlib call `now.strftime("%Y%m%d_%H%M")` from
`context_analyzer.py` line 81: four-digit year, two-digit month/day,
an underscore, two-digit hour/minute. -/
def strftimeCompact (t : PyDateTime) : String :=
  ⟨digits4 t.year ++ digits2 t.month ++ digits2 t.day ++ ['_']
    ++ digits2 t.hour ++ digits2 t.minute⟩

/-! ### Pipeline driver (`src/pipeline/base.py`)

A stage is modelled as a function that either returns the next item or
raises.  `Pipeline.run` is the translation of

    def run(self, item):
        for stage in self.stages:
            item = stage.run(item)
        return item

where a raised exception aborts the loop and propagates. -/

def Pipeline.run {α ε : Type} (stages : List (α → Except ε α)) (item : α) :
    Except ε α :=
  match stages with
  | [] => .ok item
  | stage :: rest =>
    match stage item with
    | .ok next => Pipeline.run rest next
    | .error e => .error e

/-- `self.stages.append(stage)` from `src/pipeline/base.py`. -/
def Pipeline.add_stage {α ε : Type} (stages : List (α → Except ε α))
    (stage : α → Except ε α) : List (α → Except ε α) :=
  stages ++ [stage]

/-! ### Analyzer data model (`src/text_processor/context_analyzer.py`) -/

/-- `ContextEvaluation` (context_analyzer.py lines 20-26). -/
structure ContextEvaluation where
  is_context_sufficient : Bool
  missing_elements : List String
  enrichment_suggestions : List String
  completeness_score : ℚ
  thought_completeness : String
deriving DecidableEq

/-- `BibleReference` (context_analyzer.py lines 14-18). -/
structure BibleReference where
  reference : String
  quotes : List String
  context : String
deriving DecidableEq

/-- `ContextAnalysisResult` (context_analyzer.py lines 29-38).
The source field `structure` is a Lean keyword, hence the guillemets. -/
structure ContextAnalysisResult where
  topic : String
  bible_references : List BibleReference
  keywords : List String
  themes : List String
  «structure» : Option String
  typologies_and_parallelisms : List String
  summary : String
  context_evaluation : ContextEvaluation
deriving DecidableEq

/-- The `TextItem` flowing through the pipeline: `pipeline/models.py`
declares `id` and `content`; the subclass in `context_analyzer.py` adds
`context_analysis`.  NO source class declares an `output_dir` field, and
no code under `src/` ever assigns one — yet `elevenlabs_tts.py` line 35
and `simple_card.py` line 34 read `item.output_dir` and assert it is not
`None`.  We model that attribute as an `Option` field that the embedded
code never sets, so it stays `none` exactly as the Python attribute
stays absent (reading it raises `AttributeError`). -/
structure TextItem where
  id : Option String := none
  content : String
  context_analysis : Option ContextAnalysisResult := none
  output_dir : Option String := none
deriving DecidableEq

/-! ### BiblicalContextAnalyzer.run (`context_analyzer.py` lines 53-97) -/

/-- Filesystem side effects performed by `BiblicalContextAnalyzer.run`,
in program order.  `writeAnalysis` records the `model_dump_json` write by
carrying the result object itself. -/
inductive FsEffect where
  | mkdir (path : String)
  | writeText (path : String) (content : String)
  | writeAnalysis (path : String) (result : ContextAnalysisResult)
deriving DecidableEq

/-- `result.topic.replace(' ', '')[:32]` (context_analyzer.py line 82). -/
def sanitizeTopic (topic : String) : String :=
  ⟨(topic.data.filter (fun c => c ≠ ' ')).take 32⟩

/-- `f"{today_time}_{result.topic.replace(' ', '')[:32]}"`
(context_analyzer.py lines 80-82). -/
def topicFolderName (now : PyDateTime) (topic : String) : String :=
  strftimeCompact now ++ "_" ++ sanitizeTopic topic

/-- Translation of `BiblicalContextAnalyzer.run`.

Inputs beyond the item: `outputDir` is `self.output_dir` (from settings),
`now` is `datetime.now()`, and `apiResponse` models the external
structured-output call `self.client.responses.parse(...).output_parsed`:
`Except.error` if the call raises, `.ok none` if it returns no parsed
result, `.ok (some r)` on success.  (`_detect_language` is called first
to build the prompt; the prompt only influences `apiResponse`, which is
already an input here.)

Returns the effect trace, the item's state after the call (Python
mutates `item` in place), and `.ok ()` for a normal return or `.error`
for a raised exception.  On the error path the `raise` in the `except`
block (lines 75-77) re-raises before any folder or file is created and
before `item.context_analysis` is assigned; a `None` parsed result
raises `ValueError("No structured result from OpenAI")` inside the
`try`, which the same `except` re-raises. -/
def BiblicalContextAnalyzer.run (outputDir : String) (now : PyDateTime)
    (item : TextItem)
    (apiResponse : Except String (Option ContextAnalysisResult)) :
    List FsEffect × TextItem × Except String Unit :=
  match apiResponse with
  | .error e => ([], item, .error e)
  | .ok none => ([], item, .error "No structured result from OpenAI")
  | .ok (some result) =>
    let topic_folder := topicFolderName now result.topic
    let folder_path := outputDir ++ "/" ++ topic_folder
    ([ .mkdir folder_path,
       .writeText (folder_path ++ "/input.txt") item.content,
       .writeAnalysis (folder_path ++ "/context_analysis.json") result ],
     { item with context_analysis := some result },
     .ok ())

/-! ### Language detection (`context_analyzer.py` lines 99-113) -/

/-- `'Ѐ' <= char <= 'ӿ'` (context_analyzer.py line 102). -/
def isCyrillic (c : Char) : Bool :=
  'Ѐ' ≤ c && c ≤ 'ӿ'

/-- `sum(1 for char in text if 'Ѐ' <= char <= 'ӿ')`. -/
def countCyrillic (text : List Char) : Nat :=
  (text.filter isCyrillic).length

/-- `len([char for char in text if char.isalpha()])`; `isalpha` is
Python's Unicode `str.isalpha`, passed in as an abstract predicate. -/
def countAlpha (isalpha : Char → Bool) (text : List Char) : Nat :=
  (text.filter isalpha).length

/-- The classification kernel of `_detect_language`: given the two
counts, return "English" when there are no alphabetic characters, else
compare `cyrillic_count / total_chars` with the literal `0.3`.  The
float division and comparison are modelled exactly over `ℚ`. -/
def detectFromCounts (cyr total : Nat) : String :=
  if total = 0 then "English"
  else if (0.3 : ℚ) < (cyr : ℚ) / (total : ℚ) then "Russian"
  else "English"

/-- `BiblicalContextAnalyzer._detect_language` (lines 99-113): count the
Cyrillic-range and alphabetic characters of the text, then classify. -/
def BiblicalContextAnalyzer.detect_language (isalpha : Char → Bool)
    (text : List Char) : String :=
  detectFromCounts (countCyrillic text) (countAlpha isalpha text)

/-! ### Video composer duration (`moviepy_editor.py` lines 74-80) -/

/-- `SimpleVideoCreator._get_audio_duration`: the argument models
`AudioSegment.from_file(path).duration_seconds` — `some sec` when pydub
can decode the file, `none` when that lookup raises.  The result is the
clip duration `run` passes to `with_duration`/`set_duration`. -/
def SimpleVideoCreator.get_audio_duration (decoded : Option ℚ) : ℚ :=
  match decoded with
  | some sec => max (1.0 : ℚ) sec
  | none => (5.0 : ℚ)

/-! ### Speech synthesis (`src/audio_generator/elevenlabs_tts.py`)

`pathlib.Path` values reaching this stage always have the shape
`<output_dir>/speech.<ext>`, so a path is modelled structurally:
directory part, stem, and suffix (`.suffix` / `.with_suffix` of
pathlib). -/

/-- A `pathlib.Path` as used by the audio stage. -/
structure PyPath where
  dir : String
  stem : String
  suffix : String
deriving DecidableEq

/-- `path.with_suffix(s)`. -/
def PyPath.with_suffix (p : PyPath) (s : String) : PyPath :=
  { p with suffix := s }

/-- `AudioItem` (`pipeline/models.py` line 18, subclassed unchanged in
`elevenlabs_tts.py`). -/
structure AudioItem where
  id : Option String := none
  path : PyPath
deriving DecidableEq

/-- `b"\x00\x00" * n_frames`: `n` copies of the byte block `b`. -/
def bytesRepeat (b : List Nat) (n : Nat) : List Nat :=
  (List.replicate n b).flatten

/-- Filesystem side effects of the audio stage, in program order. -/
inductive AudioEffect where
  /-- `audio_path.parent.mkdir(parents=True, exist_ok=True)` -/
  | mkdirParent (dir : String)
  /-- `AudioSegment.silent(duration=ms, frame_rate=r).export(path, format=fmt)` -/
  | exportSilent (path : PyPath) (durationMs frameRate : Nat) (fmt : String)
  /-- the `wave` module write: channels, sample width (bytes), frame
      rate, and the raw bytes passed to `writeframes` -/
  | writeWav (path : PyPath) (nChannels sampWidth frameRate : Nat)
      (data : List Nat)
  /-- `AudioSegment.from_wav(wav_path).export(audio_path, format=fmt)` -/
  | convertWav (src dst : PyPath) (fmt : String)
  /-- `audio_path.write_bytes(b"")` and similar raw writes -/
  | writeBytes (path : PyPath) (data : List Nat)
  /-- `save(audio, str(audio_path))` of the elevenlabs client -/
  | ttsSave (path : PyPath)
deriving DecidableEq

/-- Translation of `ElevenLabsTTS._create_silent_audio` (lines 58-89).

External outcomes are inputs: `pydubOk` — the pydub import +
`AudioSegment.silent(...).export(...)` tier succeeds; `waveOk` — the
`wave` module write succeeds; `convertOk` — the final
`AudioSegment.from_wav(...).export(...)` conversion succeeds.  The
Python default `duration_sec=5` is passed explicitly by `run`.

Returns the effect trace and the returned path.  `none` models the
branch in which the Python function falls off the end and implicitly
returns `None`: pydub tier failed, the `wave` write succeeded, and
`audio_path.suffix == '.wav'`, so the `if audio_path.suffix != '.wav'`
block (lines 80-86) is skipped and no `return` statement runs. -/
def ElevenLabsTTS.create_silent_audio (sampleRate : Nat) (fmt : String)
    (pydubOk waveOk convertOk : Bool) (audioPath : PyPath)
    (durationSec : Nat) : List AudioEffect × Option PyPath :=
  let mk : AudioEffect := .mkdirParent audioPath.dir
  if pydubOk then
    ([mk, .exportSilent audioPath (durationSec * 1000) sampleRate fmt],
     some audioPath)
  else if waveOk then
    -- n_channels = 1, sampwidth = 2, framerate = sample_rate,
    -- n_frames = duration_sec * framerate, data = b"\x00\x00" * n_frames
    let wavPath := audioPath.with_suffix ".wav"
    let wavWrite : AudioEffect :=
      .writeWav wavPath 1 2 sampleRate
        (bytesRepeat [0, 0] (durationSec * sampleRate))
    if audioPath.suffix ≠ ".wav" then
      if convertOk then
        ([mk, wavWrite, .convertWav wavPath audioPath fmt], some audioPath)
      else
        ([mk, wavWrite], some wavPath)
    else
      ([mk, wavWrite], none)
  else
    ([mk, .writeBytes audioPath []], some audioPath)

/-- Translation of `ElevenLabsTTS.run` (lines 34-56).

`apiKey` is `settings.elevenlabs_api_key`; `ttsOk` says whether the
external `generate`/`save` call succeeds; the remaining `Bool`s are
forwarded to `_create_silent_audio`.  The initial `assert
item.output_dir is not None` is modelled as an error on `none` (in
Python the attribute read itself raises `AttributeError`, since no
`TextItem` class defines the field; either way `run` raises).
Constructing `AudioItem(path=None)` when `_create_silent_audio` returned
`None` raises a pydantic validation error, modelled as `.error`. -/
def ElevenLabsTTS.run (apiKey : Option String) (sampleRate : Nat)
    (fmt : String) (ttsOk pydubOk waveOk convertOk : Bool)
    (item : TextItem) : List AudioEffect × Except String AudioItem :=
  match item.output_dir with
  | none => ([], .error "TextItem.output_dir must be set by previous stage")
  | some dir =>
    let audioPath : PyPath := { dir := dir, stem := "speech", suffix := "." ++ fmt }
    match apiKey with
    | none =>
      let res := ElevenLabsTTS.create_silent_audio sampleRate fmt
        pydubOk waveOk convertOk audioPath 5
      match res.2 with
      | some p => (res.1, .ok { path := p })
      | none => (res.1, .error "AudioItem.path may not be None")
    | some _ =>
      if ttsOk then
        ([.ttsSave audioPath], .ok { path := audioPath })
      else
        let res := ElevenLabsTTS.create_silent_audio sampleRate fmt
          pydubOk waveOk convertOk audioPath 5
        match res.2 with
        | some p => (res.1, .ok { path := p })
        | none => (res.1, .error "AudioItem.path may not be None")

/-! ### Card text wrapping (`src/image_generator/simple_card.py`)

`_wrap_text` operates on Python strings; we work on `List Char`.
`text.split()` (no separator) splits on runs of Unicode whitespace and
never produces empty tokens; `pyIsSpace` lists the code points for which
Python's `str.isspace` holds. -/

/-- Python `str.isspace` for a single character. -/
def pyIsSpace (c : Char) : Bool :=
  c = ' ' || c = '\t' || c = '\n' || c = '\x0b' || c = '\x0c' || c = '\r'
  || (0x1c ≤ c.toNat && c.toNat ≤ 0x1f) || c.toNat = 0x85 || c.toNat = 0xa0
  || c.toNat = 0x1680 || (0x2000 ≤ c.toNat && c.toNat ≤ 0x200a)
  || c.toNat = 0x2028 || c.toNat = 0x2029 || c.toNat = 0x202f
  || c.toNat = 0x205f || c.toNat = 0x3000

/-- Splitting on a character class: the maximal separator-free words of
`l`, in order, with no empty tokens. -/
def wordsByP (p : Char → Bool) (l : List Char) : List (List Char) :=
  match l with
  | [] => []
  | c :: rest =>
    if p c then wordsByP p rest
    else (c :: rest.takeWhile (fun x => !p x))
      :: wordsByP p (rest.dropWhile (fun x => !p x))
termination_by l.length
decreasing_by
  · simp only [List.length_cons]; omega
  · simp only [List.length_cons]
    exact Nat.lt_succ_of_le (List.dropWhile_sublist _).length_le

/-- Python `text.split()` with no separator argument. -/
def wordsBy (l : List Char) : List (List Char) :=
  wordsByP pyIsSpace l

/-- Python `sep.join(pieces)`. -/
def pyJoin (sep : List Char) : List (List Char) → List Char
  | [] => []
  | [w] => w
  | w :: ws => w ++ sep ++ pyJoin sep ws

/-- The `for word in words` loop of `_wrap_text` (lines 70-80), with the
abstract `fits` predicate standing for
`draw.textbbox((0,0), tentative, font=font)` width `≤ max_width` (this
quantifies over every font metric).  State: `lines` holds the already
joined lines exactly as the Python list does, `current` the pending
words. -/
def wrapLoop (fits : List Char → Bool) :
    List (List Char) → List (List Char) → List (List Char) →
    List (List Char) × List (List Char)
  | [], lines, current => (lines, current)
  | w :: ws, lines, current =>
    let tentative := pyJoin [' '] (current ++ [w])
    if fits tentative then wrapLoop fits ws lines (current ++ [w])
    else if current.isEmpty then wrapLoop fits ws lines [w]
    else wrapLoop fits ws (lines ++ [pyJoin [' '] current]) [w]

/-- Translation of `SimpleCardGenerator._wrap_text` (lines 67-83):
split into words, pack greedily into lines, flush the trailing line,
join with newlines. -/
def SimpleCardGenerator.wrap_text (fits : List Char → Bool)
    (text : List Char) : List Char :=
  let words := wordsBy text
  let packed := wrapLoop fits words [] []
  let lines :=
    if packed.2.isEmpty then packed.1 else packed.1 ++ [pyJoin [' '] packed.2]
  pyJoin ['\n'] lines

/-- Proof-side mirror of `wrapLoop` that keeps each line as its list of
words instead of the joined string; related to `wrapLoop` below. -/
def wrapLoopW (fits : List Char → Bool) :
    List (List Char) → List (List (List Char)) → List (List Char) →
    List (List (List Char)) × List (List Char)
  | [], lines, current => (lines, current)
  | w :: ws, lines, current =>
    if fits (pyJoin [' '] (current ++ [w])) then
      wrapLoopW fits ws lines (current ++ [w])
    else if current.isEmpty then wrapLoopW fits ws lines [w]
    else wrapLoopW fits ws (lines ++ [current]) [w]

/-- Flushing the pending words after the loop. -/
def flushW (packed : List (List (List Char)) × List (List Char)) :
    List (List (List Char)) :=
  if packed.2.isEmpty then packed.1 else packed.1 ++ [packed.2]

/-- A Python `split()` token: nonempty and separator-free (used to state
the wrapping invariants). -/
def GoodWordP (p : Char → Bool) (w : List Char) : Prop :=
  w ≠ [] ∧ ∀ c ∈ w, p c = false

/-! ### Completeness-label thresholds (spec §3 / §8)

`labelConsistent` is the spec-side derivability predicate: the
three-valued label agrees with the fixed thresholds on the score
(≥ 0.8 complete, 0.5 ≤ score < 0.8 partial, < 0.5 incomplete).  Nothing
in the source computes it; it is compared against what the code
produces. -/

def labelConsistent (ce : ContextEvaluation) : Prop :=
  ((0.8 : ℚ) ≤ ce.completeness_score → ce.thought_completeness = "complete")
  ∧ ((0.5 : ℚ) ≤ ce.completeness_score ∧ ce.completeness_score < (0.8 : ℚ) →
      ce.thought_completeness = "partial")
  ∧ (ce.completeness_score < (0.5 : ℚ) →
      ce.thought_completeness = "incomplete")

instance (ce : ContextEvaluation) : Decidable (labelConsistent ce) := by
  unfold labelConsistent; infer_instance

/-! ### Concrete sample data for closed theorems -/

/-- A sample run timestamp. -/
def sampleDate : PyDateTime := ⟨2025, 1, 2, 3, 4⟩

/-- A fresh `TextItem` as `main.py` builds it from user input. -/
def sampleItem : TextItem :=
  { content := "In the beginning God created the heavens and the earth." }

/-- An external analysis result whose label does satisfy the
threshold derivation. -/
def consistentResult : ContextAnalysisResult :=
  { topic := "Creation Story"
    bible_references := [⟨"Genesis 1:1", ["In the beginning..."], "The creation account"⟩]
    keywords := ["creation"]
    themes := []
    «structure» := none
    typologies_and_parallelisms := []
    summary := "God created everything."
    context_evaluation :=
      { is_context_sufficient := true
        missing_elements := []
        enrichment_suggestions := []
        completeness_score := (0.9 : ℚ)
        thought_completeness := "complete" } }

/-- An external analysis result with score 0.9 but label "incomplete":
the external call is free to return this, and nothing in the stage
rejects it. -/
def inconsistentResult : ContextAnalysisResult :=
  { consistentResult with
    context_evaluation :=
      { is_context_sufficient := true
        missing_elements := []
        enrichment_suggestions := []
        completeness_score := (0.9 : ℚ)
        thought_completeness := "incomplete" } }

/-- A `TextItem` whose `output_dir` attribute is set, as the audio and
image stages expect to receive it. -/
def itemWithDir : TextItem :=
  { content := "In the beginning God created the heavens and the earth."
    context_analysis := some consistentResult
    output_dir := some "output/20250102_0304_CreationStory" }

theorem digitChar_ne_space (n : Nat) : digitChar n ≠ ' ' := by
  unfold digitChar; split <;> decide

theorem strftimeCompact_no_space (t : PyDateTime) :
    ∀ c ∈ (strftimeCompact t).data, c ≠ ' ' := by
  intro c hc
  simp only [strftimeCompact, digits4, digits2, List.mem_append, List.mem_cons,
    List.mem_singleton, List.not_mem_nil, or_false] at hc
  casesm* _ ∨ _ <;> subst_vars <;>
    first | exact digitChar_ne_space _ | decide

/-- C6: for every timestamp and topic, the per-run folder name (compact
timestamp, underscore, topic with spaces removed truncated to 32
characters) is at most the timestamp-prefix length (underscore
included) plus 32 characters, and contains no space character. -/
theorem topic_folder_length_and_no_space (t : PyDateTime) (topic : String) :
    (topicFolderName t topic).length ≤ (strftimeCompact t ++ "_").length + 32
    ∧ ∀ c ∈ (topicFolderName t topic).data, c ≠ ' ' := by
  constructor
  · show (strftimeCompact t ++ "_" ++ sanitizeTopic topic).length ≤ _
    rw [String.length_append, String.length_append]
    have : (sanitizeTopic topic).length ≤ 32 := by
      show ((topic.data.filter (fun c => c ≠ ' ')).take 32).length ≤ 32
      simp [List.length_take_le]
    omega
  · intro c hc
    have hdata : (topicFolderName t topic).data
        = (strftimeCompact t).data ++ '_' :: (topic.data.filter (fun c => c ≠ ' ')).take 32 := by
      simp [topicFolderName, sanitizeTopic, String.data_append]
    rw [hdata] at hc
    rcases List.mem_append.1 hc with h | h
    · exact strftimeCompact_no_space t c h
    · rcases List.mem_cons.1 h with h | h
      · subst h; decide
      · have := List.mem_filter.1 (List.take_subset _ _ h)
        simpa using this.2

/-- C6 witness: the bound and the no-space property at a concrete
timestamp and a topic containing spaces. -/
theorem topic_folder_length_and_no_space_witness :
    (topicFolderName sampleDate "Creation Story").length
        ≤ (strftimeCompact sampleDate ++ "_").length + 32
    ∧ ∀ c ∈ (topicFolderName sampleDate "Creation Story").data, c ≠ ' ' :=
  topic_folder_length_and_no_space sampleDate "Creation Story"


theorem Pipeline.run_nil {α ε : Type} (item : α) :
    Pipeline.run ([] : List (α → Except ε α)) item = .ok item := rfl

theorem Pipeline.run_cons {α ε : Type} (s : α → Except ε α)
    (rest : List (α → Except ε α)) (item : α) :
    Pipeline.run (s :: rest) item
      = (s item).bind (fun i => Pipeline.run rest i) := by
  cases hs : s item <;> simp [Pipeline.run, hs, Except.bind]

theorem Pipeline.run_append {α ε : Type} (l₁ l₂ : List (α → Except ε α))
    (item : α) :
    Pipeline.run (l₁ ++ l₂) item
      = (Pipeline.run l₁ item).bind (fun i => Pipeline.run l₂ i) := by
  induction l₁ generalizing item with
  | nil => rfl
  | cons s rest ih =>
    rw [List.cons_append, Pipeline.run_cons, Pipeline.run_cons]
    cases s item with
    | ok next => exact ih next
    | error e => rfl

theorem Except.foldl_bind_error {α ε : Type} (l : List (α → Except ε α))
    (e : ε) :
    l.foldl (fun acc stage => acc.bind stage) (Except.error e)
      = Except.error e := by
  induction l with
  | nil => rfl
  | cons t ts ih => exact ih

theorem Pipeline.run_eq_foldl {α ε : Type} (stages : List (α → Except ε α))
    (item : α) :
    Pipeline.run stages item
      = stages.foldl (fun acc stage => acc.bind stage) (Except.ok item) := by
  induction stages generalizing item with
  | nil => rfl
  | cons s rest ih =>
    rw [Pipeline.run_cons]
    show _ = List.foldl _ (s item) rest
    cases s item with
    | ok next => exact ih next
    | error e => exact (Except.foldl_bind_error rest e).symm

/-- C2: `Pipeline.run` is the left fold of the stage list with
exception-propagating bind: stages run left to right in the order
`add_stage` appended them, each output feeding the next stage; a stage
that raises aborts the fold immediately and its error is returned
unchanged, with the remaining stages never run. -/
theorem pipeline_run_fold_spec {α ε : Type}
    (stages pre post : List (α → Except ε α)) (st : α → Except ε α)
    (item i : α) (e : ε)
    (hpre : Pipeline.run pre item = .ok i) (hst : st i = .error e) :
    (Pipeline.run stages item
        = stages.foldl (fun acc stage => acc.bind stage) (Except.ok item))
    ∧ (Pipeline.run (Pipeline.add_stage stages st) item
        = (Pipeline.run stages item).bind st)
    ∧ (Pipeline.run (pre ++ st :: post) item = .error e) := by
  refine ⟨Pipeline.run_eq_foldl stages item, ?_, ?_⟩
  · rw [Pipeline.add_stage, Pipeline.run_append]
    cases Pipeline.run stages item with
    | ok j =>
      show Pipeline.run [st] j = st j
      rw [Pipeline.run_cons]
      cases st j <;> rfl
    | error e' => rfl
  · rw [Pipeline.run_append, hpre]
    show Pipeline.run (st :: post) i = _
    rw [Pipeline.run_cons, hst]
    rfl

/-- C2 witness: a concrete two-stage pipeline over `Nat` items with a
failing second stage, instantiating the fold and abort facts. -/
theorem pipeline_run_fold_spec_witness :
    (Pipeline.run ([fun n => Except.ok (n + 1)] : List (Nat → Except String Nat)) 0
        = .ok 1)
    ∧ ((fun _ : Nat => (Except.error "boom" : Except String Nat)) 1
        = .error "boom")
    ∧ ((Pipeline.run ([fun n => Except.ok (n + 1)] : List (Nat → Except String Nat)) 0
          = ([fun n => Except.ok (n + 1)] : List (Nat → Except String Nat)).foldl
              (fun acc stage => acc.bind stage) (Except.ok 0))
      ∧ (Pipeline.run
            (Pipeline.add_stage ([fun n => Except.ok (n + 1)] : List (Nat → Except String Nat))
              (fun _ => Except.error "boom")) 0
          = (Pipeline.run ([fun n => Except.ok (n + 1)] : List (Nat → Except String Nat)) 0).bind
              (fun _ => Except.error "boom"))
      ∧ (Pipeline.run
            (([fun n => Except.ok (n + 1)] : List (Nat → Except String Nat))
              ++ (fun _ => Except.error "boom") :: []) 0
          = .error "boom")) :=
  ⟨rfl, rfl,
    pipeline_run_fold_spec [fun n => Except.ok (n + 1)]
      [fun n => Except.ok (n + 1)] [] (fun _ => Except.error "boom")
      0 1 "boom" rfl rfl⟩

/-- C5: when the external structured-output call raises or returns a
null result, `BiblicalContextAnalyzer.run` re-raises, performs no
filesystem effect (no folder, no files), and leaves the input item
exactly as it was (in particular `context_analysis` stays `none`). -/
theorem analyzer_run_error_is_atomic (outputDir : String) (now : PyDateTime)
    (item : TextItem) (e : String) :
    BiblicalContextAnalyzer.run outputDir now item (.error e)
        = ([], item, .error e)
    ∧ BiblicalContextAnalyzer.run outputDir now item (.ok none)
        = ([], item, .error "No structured result from OpenAI") :=
  ⟨rfl, rfl⟩

/-- C1: contrary to the claim, after a successful
`BiblicalContextAnalyzer.run` the item's `output_dir` is still `none` —
the stage never records the created folder — so feeding the produced
item to the audio stage fails its `output_dir is not None`
precondition.  (Code-bug evaluation at a concrete successful run.) -/
theorem analyzer_run_leaves_output_dir_unset :
    (BiblicalContextAnalyzer.run "output" sampleDate sampleItem
        (.ok (some consistentResult))).2.2 = .ok ()
    ∧ (BiblicalContextAnalyzer.run "output" sampleDate sampleItem
        (.ok (some consistentResult))).2.1.output_dir = none
    ∧ (ElevenLabsTTS.run none 22050 "mp3" true true true true
        (BiblicalContextAnalyzer.run "output" sampleDate sampleItem
          (.ok (some consistentResult))).2.1).2
        = .error "TextItem.output_dir must be set by previous stage" :=
  ⟨rfl, rfl, rfl⟩

/-- C8: the video composer derives the still-image clip duration from
the audio artifact's decoded duration (clamped below by 1.0), and uses
the fixed default of 5.0 seconds whenever the duration cannot be
determined. -/
theorem video_duration_from_audio_or_default :
    SimpleVideoCreator.get_audio_duration none = (5.0 : ℚ)
    ∧ ∀ sec : ℚ, SimpleVideoCreator.get_audio_duration (some sec)
        = max (1.0 : ℚ) sec :=
  ⟨rfl, fun _ => rfl⟩

/-- C7: `_detect_language` classifies via the counts alone; the count
kernel returns the non-default language "Russian" exactly when there
are alphabetic characters and the Cyrillic/alphabetic ratio exceeds the
0.3 threshold; with no alphabetic characters it returns the default; for
a fixed alphabetic count the classification is monotone in the
Cyrillic count: above the threshold it never flips back to the default,
and at or below the threshold it never yields the non-default. -/
theorem detect_language_threshold_and_monotone (isalpha : Char → Bool)
    (text : List Char) (cyr cyr' total : Nat) (hle : cyr ≤ cyr') :
    (BiblicalContextAnalyzer.detect_language isalpha text
        = detectFromCounts (countCyrillic text) (countAlpha isalpha text))
    ∧ (detectFromCounts cyr total = "Russian"
        ↔ total ≠ 0 ∧ (0.3 : ℚ) < (cyr : ℚ) / (total : ℚ))
    ∧ (detectFromCounts cyr 0 = "English")
    ∧ (total ≠ 0 → (0.3 : ℚ) < (cyr : ℚ) / (total : ℚ) →
        detectFromCounts cyr' total = "Russian")
    ∧ ((cyr : ℚ) / (total : ℚ) ≤ (0.3 : ℚ) →
        detectFromCounts cyr total = "English") := by
  have hne : ("English" : String) ≠ "Russian" := by decide
  have hmono : (0.3 : ℚ) < (cyr : ℚ) / (total : ℚ) →
      (0.3 : ℚ) < (cyr' : ℚ) / (total : ℚ) := by
    intro h
    have hq : (cyr : ℚ) ≤ (cyr' : ℚ) := by exact_mod_cast hle
    have hdiv : (cyr : ℚ) / (total : ℚ) ≤ (cyr' : ℚ) / (total : ℚ) := by gcongr
    exact lt_of_lt_of_le h hdiv
  refine ⟨rfl, ?_, ?_, ?_, ?_⟩
  · by_cases h0 : total = 0
    · subst h0; simp [detectFromCounts, hne]
    · by_cases hcmp : (0.3 : ℚ) < (cyr : ℚ) / (total : ℚ)
      · simp [detectFromCounts, h0, hcmp]
      · simp [detectFromCounts, h0, hcmp, hne]
  · rfl
  · intro ht hcmp
    unfold detectFromCounts
    rw [if_neg ht, if_pos (hmono hcmp)]
  · intro hle'
    by_cases h0 : total = 0
    · subst h0; simp [detectFromCounts]
    · unfold detectFromCounts
      rw [if_neg h0, if_neg (not_lt.mpr hle')]

/-- C7 witness: counts 4/10 lie above the 0.3 threshold; 6 keeps them
there; the no-alphabetic and at-threshold facts are instantiated at the
same counts over a concrete text and alphabet predicate. -/
theorem detect_language_threshold_and_monotone_witness :
    (4 ≤ 6)
    ∧ ((BiblicalContextAnalyzer.detect_language (fun c => c.isAlpha)
          "hello".data
          = detectFromCounts (countCyrillic "hello".data)
              (countAlpha (fun c => c.isAlpha) "hello".data))
      ∧ (detectFromCounts 4 10 = "Russian"
          ↔ 10 ≠ 0 ∧ (0.3 : ℚ) < (4 : Nat) / ((10 : Nat) : ℚ))
      ∧ (detectFromCounts 4 0 = "English")
      ∧ (10 ≠ 0 → (0.3 : ℚ) < ((4 : Nat) : ℚ) / ((10 : Nat) : ℚ) →
          detectFromCounts 6 10 = "Russian")
      ∧ (((4 : Nat) : ℚ) / ((10 : Nat) : ℚ) ≤ (0.3 : ℚ) →
          detectFromCounts 4 10 = "English")) :=
  ⟨by decide,
    detect_language_threshold_and_monotone (fun c => c.isAlpha)
      "hello".data 4 6 10 (by decide)⟩

/-- C3: contrary to the claim, with the configured audio format `wav`,
no API credential, a failing pydub tier and a succeeding wave tier,
`ElevenLabsTTS.run` raises (building `AudioItem(path=None)`) even
though the silent placeholder `speech.wav` was written:
`_create_silent_audio` falls off the end and returns `None`.
(Code-bug evaluation at that concrete failing input.) -/
theorem tts_run_wav_fallback_raises :
    ((ElevenLabsTTS.run none 22050 "wav" true false true true itemWithDir).2
        = .error "AudioItem.path may not be None")
    ∧ ((ElevenLabsTTS.run none 22050 "wav" true false true true itemWithDir).1
        = [.mkdirParent "output/20250102_0304_CreationStory",
           .writeWav ⟨"output/20250102_0304_CreationStory", "speech", ".wav"⟩
             1 2 22050 (bytesRepeat [0, 0] (5 * 22050))]) :=
  ⟨rfl, rfl⟩

/-- C4: whenever the raw-waveform tier runs (pydub tier failed, wave
write succeeds) it writes a single-channel (1), 16-bit (sample width 2)
PCM clip at the configured rate whose data is `2 * (d * r)` zero bytes —
exactly `d * r` frames, i.e. `d` seconds at rate `r` — and when both
tiers fail the fallback writes a zero-byte file and returns normally. -/
theorem silent_audio_raw_tier_and_empty_fallback (sampleRate durationSec : Nat)
    (fmt : String) (convertOk : Bool) (p : PyPath)
    (hpos : 0 < durationSec) (hrate : 0 < sampleRate) :
    ((AudioEffect.writeWav (p.with_suffix ".wav") 1 2 sampleRate
          (bytesRepeat [0, 0] (durationSec * sampleRate)))
        ∈ (ElevenLabsTTS.create_silent_audio sampleRate fmt
            false true convertOk p durationSec).1)
    ∧ ((bytesRepeat [0, 0] (durationSec * sampleRate)).length
        = 2 * (durationSec * sampleRate))
    ∧ (∀ b ∈ bytesRepeat [0, 0] (durationSec * sampleRate), b = 0)
    ∧ (ElevenLabsTTS.create_silent_audio sampleRate fmt
          false false convertOk p durationSec
        = ([.mkdirParent p.dir, .writeBytes p []], some p)) := by
  refine ⟨?_, ?_, ?_, rfl⟩
  · unfold ElevenLabsTTS.create_silent_audio
    simp only [Bool.false_eq_true, if_false, if_true]
    split
    · split
      · exact List.mem_cons_of_mem _ (List.mem_cons_self _ _)
      · exact List.mem_cons_of_mem _ (List.mem_cons_self _ _)
    · exact List.mem_cons_of_mem _ (List.mem_cons_self _ _)
  · unfold bytesRepeat
    rw [List.length_flatten, List.map_replicate]
    simp [List.sum_replicate, Nat.mul_comm]
  · intro b hb
    unfold bytesRepeat at hb
    rcases List.mem_flatten.1 hb with ⟨l, hl, hbl⟩
    rcases List.mem_replicate.1 hl with ⟨-, rfl⟩
    rcases List.mem_cons.1 hbl with h | h
    · exact h
    · simpa using h

/-- C4 witness: one second at two frames per second gives four zero
bytes; the both-tiers-fail case writes the empty byte string. -/
theorem silent_audio_raw_tier_and_empty_fallback_witness :
    (0 < 1) ∧ (0 < 2)
    ∧ (((AudioEffect.writeWav ((⟨"d", "speech", ".mp3"⟩ : PyPath).with_suffix ".wav")
            1 2 2 (bytesRepeat [0, 0] (1 * 2)))
          ∈ (ElevenLabsTTS.create_silent_audio 2 "mp3"
              false true true ⟨"d", "speech", ".mp3"⟩ 1).1)
      ∧ ((bytesRepeat [0, 0] (1 * 2)).length = 2 * (1 * 2))
      ∧ (∀ b ∈ bytesRepeat [0, 0] (1 * 2), b = 0)
      ∧ (ElevenLabsTTS.create_silent_audio 2 "mp3" false false true
            ⟨"d", "speech", ".mp3"⟩ 1
          = ([.mkdirParent "d", .writeBytes ⟨"d", "speech", ".mp3"⟩ []],
             some ⟨"d", "speech", ".mp3"⟩))) :=
  ⟨by decide, by decide,
    silent_audio_raw_tier_and_empty_fallback 2 1 "mp3" true
      ⟨"d", "speech", ".mp3"⟩ (by decide) (by decide)⟩

/-- C9 counterexample: the external call may return score 0.9 with label
"incomplete"; the analysis stage attaches it unchanged, so the produced
result violates the threshold derivation. -/
theorem analyzer_label_consistency_counterexample :
    ((BiblicalContextAnalyzer.run "output" sampleDate sampleItem
        (.ok (some inconsistentResult))).2.2 = .ok ())
    ∧ ((BiblicalContextAnalyzer.run "output" sampleDate sampleItem
        (.ok (some inconsistentResult))).2.1.context_analysis
          = some inconsistentResult)
    ∧ ¬ labelConsistent inconsistentResult.context_evaluation := by
  refine ⟨rfl, rfl, ?_⟩
  intro h
  have h8 : (0.8 : ℚ) ≤ inconsistentResult.context_evaluation.completeness_score := by
    show (0.8 : ℚ) ≤ (0.9 : ℚ)
    norm_num
  have := h.1 h8
  simp [inconsistentResult, consistentResult] at this

/-- C9 (amended): the analysis stage attaches the external call's
result unchanged, so every produced `ContextAnalysisResult` satisfies
the threshold derivation exactly when the external result already did;
the stage itself does not enforce the invariant. -/
theorem analyzer_label_passthrough (outputDir : String) (now : PyDateTime)
    (item : TextItem) (r : ContextAnalysisResult) :
    ((BiblicalContextAnalyzer.run outputDir now item
        (.ok (some r))).2.1.context_analysis = some r)
    ∧ (labelConsistent r.context_evaluation →
        ∀ a, (BiblicalContextAnalyzer.run outputDir now item
            (.ok (some r))).2.1.context_analysis = some a →
          labelConsistent a.context_evaluation) := by
  refine ⟨rfl, ?_⟩
  intro hr a ha
  have : some r = some a := by
    calc some r
        = (BiblicalContextAnalyzer.run outputDir now item
            (.ok (some r))).2.1.context_analysis := rfl
      _ = some a := ha
  cases Option.some.inj this
  exact hr

/-- C9 witness: instantiated at a result whose label already satisfies
the thresholds. -/
theorem analyzer_label_passthrough_witness :
    ((BiblicalContextAnalyzer.run "output" sampleDate sampleItem
        (.ok (some consistentResult))).2.1.context_analysis
          = some consistentResult)
    ∧ (labelConsistent consistentResult.context_evaluation →
        ∀ a, (BiblicalContextAnalyzer.run "output" sampleDate sampleItem
            (.ok (some consistentResult))).2.1.context_analysis = some a →
          labelConsistent a.context_evaluation) :=
  analyzer_label_passthrough "output" sampleDate sampleItem consistentResult

/-! ### C10 support: words survive wrapping -/

theorem takeWhile_append_of_all {α : Type} (q : α → Bool) (w s : List α)
    (h : ∀ c ∈ w, q c = true) :
    (w ++ s).takeWhile q = w ++ s.takeWhile q := by
  induction w with
  | nil => rfl
  | cons a w ih =>
    have ha : q a = true := h a (List.mem_cons_self a w)
    rw [List.cons_append, List.takeWhile_cons_of_pos ha,
      ih (fun c hc => h c (List.mem_cons_of_mem _ hc)), List.cons_append]

theorem dropWhile_append_of_all {α : Type} (q : α → Bool) (w s : List α)
    (h : ∀ c ∈ w, q c = true) :
    (w ++ s).dropWhile q = s.dropWhile q := by
  induction w with
  | nil => rfl
  | cons a w ih =>
    have ha : q a = true := h a (List.mem_cons_self a w)
    rw [List.cons_append, List.dropWhile_cons_of_pos ha,
      ih (fun c hc => h c (List.mem_cons_of_mem _ hc))]

theorem wordsByP_nil (p : Char → Bool) : wordsByP p [] = [] := by
  rw [wordsByP.eq_def]

theorem wordsByP_cons (p : Char → Bool) (c : Char) (rest : List Char) :
    wordsByP p (c :: rest)
      = if p c then wordsByP p rest
        else (c :: rest.takeWhile (fun x => !p x))
          :: wordsByP p (rest.dropWhile (fun x => !p x)) := by
  rw [wordsByP.eq_def]

theorem wordsByP_space_cons (p : Char → Bool) (c : Char) (s : List Char)
    (hc : p c = true) : wordsByP p (c :: s) = wordsByP p s := by
  rw [wordsByP_cons]; simp [hc]

theorem wordsByP_word_append (p : Char → Bool) (w s : List Char)
    (hw : GoodWordP p w) (hs : ∀ c, s.head? = some c → p c = true) :
    wordsByP p (w ++ s) = w :: wordsByP p s := by
  obtain ⟨hne, hgood⟩ := hw
  match w with
  | [] => exact absurd rfl hne
  | a :: w' =>
    have ha : p a = false := hgood a (List.mem_cons_self a w')
    have hq : ∀ c ∈ w', (fun x => !p x) c = true := by
      intro c hc
      simp [hgood c (List.mem_cons_of_mem _ hc)]
    have htk : (w' ++ s).takeWhile (fun x => !p x) = w' := by
      rw [takeWhile_append_of_all _ _ _ hq]
      cases s with
      | nil => simp
      | cons c s' =>
        have := hs c rfl
        rw [List.takeWhile_cons_of_neg (by simp [this])]
        simp
    have hdr : (w' ++ s).dropWhile (fun x => !p x) = s := by
      rw [dropWhile_append_of_all _ _ _ hq]
      cases s with
      | nil => rfl
      | cons c s' =>
        have := hs c rfl
        rw [List.dropWhile_cons_of_neg (by simp [this])]
    show wordsByP p (a :: (w' ++ s)) = (a :: w') :: wordsByP p s
    rw [wordsByP_cons]
    simp only [ha, Bool.false_eq_true, if_false, htk, hdr]

theorem wordsByP_good (p : Char → Bool) (l : List Char) :
    ∀ w ∈ wordsByP p l, GoodWordP p w := by
  induction l using wordsByP.induct p with
  | case1 => intro w hw; simp [wordsByP_nil] at hw
  | case2 c rest hc ih =>
    intro w hw
    rw [wordsByP_space_cons p c rest (by simpa using hc)] at hw
    exact ih w hw
  | case3 c rest hc ih =>
    intro w hw
    rw [wordsByP_cons] at hw
    have hc' : p c = false := by simpa using hc
    simp only [hc', Bool.false_eq_true, if_false, List.mem_cons] at hw
    rcases hw with rfl | hw
    · refine ⟨by simp, ?_⟩
      intro x hx
      rcases List.mem_cons.1 hx with rfl | hx
      · exact hc'
      · have := List.mem_takeWhile_imp hx
        simpa using this
    · exact ih w hw

theorem pyJoin_two (sep : List Char) (w w' : List Char)
    (ws : List (List Char)) :
    pyJoin sep (w :: w' :: ws) = w ++ sep ++ pyJoin sep (w' :: ws) := rfl

theorem wordsByP_pyJoin_append (p : Char → Bool) (sp : Char)
    (hsp : p sp = true) (ws : List (List Char)) (s : List Char)
    (hws : ∀ w ∈ ws, GoodWordP p w) (hne : ws ≠ [])
    (hs : ∀ c, s.head? = some c → p c = true) :
    wordsByP p (pyJoin [sp] ws ++ s) = ws ++ wordsByP p s := by
  induction ws with
  | nil => exact absurd rfl hne
  | cons w rest ih =>
    cases rest with
    | nil =>
      show wordsByP p (w ++ s) = w :: wordsByP p s
      exact wordsByP_word_append p w s (hws w (List.mem_cons_self _ _)) hs
    | cons w' rest' =>
      rw [pyJoin_two]
      have hshape : (w ++ [sp] ++ pyJoin [sp] (w' :: rest')) ++ s
          = w ++ (sp :: (pyJoin [sp] (w' :: rest') ++ s)) := by
        simp
      rw [hshape]
      rw [wordsByP_word_append p w _ (hws w (List.mem_cons_self _ _))
        (by intro c hc; cases hc; exact hsp)]
      rw [wordsByP_space_cons p sp _ hsp]
      rw [ih (fun x hx => hws x (List.mem_cons_of_mem _ hx)) (by simp)]
      rfl

theorem wordsByP_pyJoin_lines (p : Char → Bool) (sp nl : Char)
    (hsp : p sp = true) (hnl : p nl = true)
    (lls : List (List (List Char)))
    (h : ∀ l ∈ lls, l ≠ [] ∧ ∀ w ∈ l, GoodWordP p w) :
    wordsByP p (pyJoin [nl] (lls.map (pyJoin [sp]))) = lls.flatten := by
  induction lls with
  | nil => exact wordsByP_nil p
  | cons l rest ih =>
    cases rest with
    | nil =>
      show wordsByP p (pyJoin [sp] l) = l ++ []
      have := wordsByP_pyJoin_append p sp hsp l []
        (h l (List.mem_cons_self _ _)).2 (h l (List.mem_cons_self _ _)).1
        (by intro c hc; simp at hc)
      simpa [wordsByP_nil] using this
    | cons l' rest' =>
      show wordsByP p (pyJoin [nl]
        (pyJoin [sp] l :: (l' :: rest').map (pyJoin [sp]))) = _
      rw [List.map_cons, pyJoin_two, List.append_assoc, List.singleton_append]
      rw [wordsByP_pyJoin_append p sp hsp l _
        (h l (List.mem_cons_self _ _)).2 (h l (List.mem_cons_self _ _)).1
        (by intro c hc; cases hc; exact hnl)]
      rw [wordsByP_space_cons p nl _ hnl]
      rw [← List.map_cons, ih (fun x hx => h x (List.mem_cons_of_mem _ hx))]
      simp

theorem wrapLoop_eq_wrapLoopW (fits : List Char → Bool)
    (ws : List (List Char)) (lls : List (List (List Char)))
    (cur : List (List Char)) :
    wrapLoop fits ws (lls.map (pyJoin [' '])) cur
      = ((wrapLoopW fits ws lls cur).1.map (pyJoin [' ']),
         (wrapLoopW fits ws lls cur).2) := by
  induction ws generalizing lls cur with
  | nil => rfl
  | cons w rest ih =>
    rw [wrapLoop, wrapLoopW]
    by_cases hfit : fits (pyJoin [' '] (cur ++ [w]))
    · simp only [hfit, if_true]
      exact ih lls (cur ++ [w])
    · simp only [hfit, if_false]
      by_cases hcur : cur.isEmpty
      · simp only [hcur, if_true]
        exact ih lls [w]
      · simp only [hcur, if_false]
        have : lls.map (pyJoin [' ']) ++ [pyJoin [' '] cur]
            = (lls ++ [cur]).map (pyJoin [' ']) := by
          simp
        rw [this]
        exact ih (lls ++ [cur]) [w]

theorem flushW_wrapLoopW_flatten (fits : List Char → Bool)
    (ws : List (List Char)) (lls : List (List (List Char)))
    (cur : List (List Char)) :
    (flushW (wrapLoopW fits ws lls cur)).flatten
      = lls.flatten ++ cur ++ ws := by
  induction ws generalizing lls cur with
  | nil =>
    show (flushW (lls, cur)).flatten = _
    unfold flushW
    by_cases hcur : cur.isEmpty
    · have hc : cur = [] := List.isEmpty_iff.mp hcur
      rw [if_pos hcur]
      simp [hc]
    · rw [if_neg hcur]
      simp
  | cons w rest ih =>
    rw [wrapLoopW]
    by_cases hfit : fits (pyJoin [' '] (cur ++ [w]))
    · rw [if_pos hfit, ih lls (cur ++ [w])]
      simp
    · rw [if_neg hfit]
      by_cases hcur : cur.isEmpty
      · have hc : cur = [] := List.isEmpty_iff.mp hcur
        rw [if_pos hcur, ih lls [w]]
        simp [hc]
      · rw [if_neg hcur, ih (lls ++ [cur]) [w]]
        simp

theorem flushW_wrapLoopW_good (p : Char → Bool) (fits : List Char → Bool)
    (ws : List (List Char)) (lls : List (List (List Char)))
    (cur : List (List Char))
    (hws : ∀ w ∈ ws, GoodWordP p w) (hcur : ∀ w ∈ cur, GoodWordP p w)
    (hlls : ∀ l ∈ lls, l ≠ [] ∧ ∀ w ∈ l, GoodWordP p w) :
    ∀ l ∈ flushW (wrapLoopW fits ws lls cur),
      l ≠ [] ∧ ∀ w ∈ l, GoodWordP p w := by
  induction ws generalizing lls cur with
  | nil =>
    intro l hl
    have hl' : l ∈ flushW (lls, cur) := hl
    unfold flushW at hl'
    by_cases hc : cur.isEmpty
    · rw [if_pos hc] at hl'
      exact hlls l hl'
    · rw [if_neg hc] at hl'
      rcases List.mem_append.1 hl' with h | h
      · exact hlls l h
      · rcases List.mem_singleton.1 h with rfl
        exact ⟨fun he => hc (by simp [he]), hcur⟩
  | cons w rest ih =>
    intro l hl
    rw [wrapLoopW] at hl
    by_cases hfit : fits (pyJoin [' '] (cur ++ [w]))
    · rw [if_pos hfit] at hl
      refine ih lls (cur ++ [w])
        (fun x hx => hws x (List.mem_cons_of_mem _ hx)) ?_ hlls l hl
      intro x hx
      rcases List.mem_append.1 hx with h | h
      · exact hcur x h
      · rcases List.mem_singleton.1 h with rfl
        exact hws x (List.mem_cons_self _ _)
    · rw [if_neg hfit] at hl
      by_cases hc : cur.isEmpty
      · rw [if_pos hc] at hl
        refine ih lls [w]
          (fun x hx => hws x (List.mem_cons_of_mem _ hx)) ?_ hlls l hl
        intro x hx
        rcases List.mem_singleton.1 hx with rfl
        exact hws x (List.mem_cons_self _ _)
      · rw [if_neg hc] at hl
        refine ih (lls ++ [cur]) [w]
          (fun x hx => hws x (List.mem_cons_of_mem _ hx)) ?_ ?_ l hl
        · intro x hx
          rcases List.mem_singleton.1 hx with rfl
          exact hws x (List.mem_cons_self _ _)
        · intro x hx
          rcases List.mem_append.1 hx with h | h
          · exact hlls x h
          · rcases List.mem_singleton.1 h with rfl
            exact ⟨fun he => hc (by simp [he]), hcur⟩

/-- C10: for every font-metric predicate and every input text,
splitting the wrapped output of `_wrap_text` on whitespace yields
exactly the word sequence of the input — wrapping never drops,
duplicates, or reorders a word. -/
theorem wrap_text_preserves_words (fits : List Char → Bool)
    (text : List Char) :
    wordsBy (SimpleCardGenerator.wrap_text fits text) = wordsBy text := by
  unfold SimpleCardGenerator.wrap_text wordsBy
  set ws := wordsByP pyIsSpace text with hws
  set W := wrapLoopW fits ws [] [] with hW
  have hsim : wrapLoop fits ws [] []
      = (W.1.map (pyJoin [' ']), W.2) := by
    have := wrapLoop_eq_wrapLoopW fits ws [] []
    simpa using this
  show wordsByP pyIsSpace
      (pyJoin ['\n']
        (if (wrapLoop fits ws [] []).2.isEmpty
          then (wrapLoop fits ws [] []).1
          else (wrapLoop fits ws [] []).1
            ++ [pyJoin [' '] (wrapLoop fits ws [] []).2]))
    = ws
  rw [hsim]
  have hlines : (if W.2.isEmpty then W.1.map (pyJoin [' '])
        else W.1.map (pyJoin [' ']) ++ [pyJoin [' '] W.2])
      = (flushW W).map (pyJoin [' ']) := by
    unfold flushW
    by_cases h : W.2.isEmpty
    · rw [if_pos h, if_pos h]
    · rw [if_neg h, if_neg h]; simp
  show wordsByP pyIsSpace
      (pyJoin ['\n']
        (if W.2.isEmpty then W.1.map (pyJoin [' '])
          else W.1.map (pyJoin [' ']) ++ [pyJoin [' '] W.2]))
    = ws
  rw [hlines]
  have hgood : ∀ l ∈ flushW W, l ≠ [] ∧ ∀ w ∈ l, GoodWordP pyIsSpace w := by
    rw [hW, hws]
    exact flushW_wrapLoopW_good pyIsSpace fits (wordsByP pyIsSpace text) [] []
      (wordsByP_good pyIsSpace text)
      (by intro x hx; simp at hx)
      (by intro x hx; simp at hx)
  rw [wordsByP_pyJoin_lines pyIsSpace ' ' '\n' (by decide) (by decide)
    (flushW W) hgood]
  rw [hW, hws]
  have := flushW_wrapLoopW_flatten fits (wordsByP pyIsSpace text) [] []
  simpa using this
